import Mathlib

/-!
# Verification of the three-webgpu-webxr-sandbox particle/XR pipeline

Shallow embedding of the repository's core components:

* `LinkedParticles` (src/scene/LinkedParticles.ts): CPU-side state of the
  TSL particle emitter (uniforms, ring spawn cursor, lazy init flag), the
  `compute()` driver, and the device-side semantics of the three compute
  stages (init, integrate/update with nearest-two-neighbour search, spawn).
  Positions and lives are embedded over `ℚ`; the shader's transcendental
  primitives (`sin`, `cos`, `hash`, the value of pi) are abstracted as an
  oracle structure `SpawnEnv`, so every definition stays executable.
* `RenderLoop` (src/core/RenderLoop.ts): the dual-mode frame loop, with
  scheduling and callback invocation reified as an effect list.
* `XRSessionManager` (src/core/XRSessionManager.ts): the guard sequence of
  `requestSession`.
* `XRBlitter` (src/renderer/XRBlitter.ts): per-view transfer and the
  per-format pipeline cache.
* `App.xrRenderFrame` (src/main.ts): the per-headset-frame effect trace.
-/

/-- A 3-component vector over `ℚ` (embedding of the shader's `vec3`). -/
structure Vec3 where
  x : ℚ
  y : ℚ
  z : ℚ
deriving DecidableEq, Repr

namespace Vec3

def zero : Vec3 := ⟨0, 0, 0⟩

def add (a b : Vec3) : Vec3 := ⟨a.x + b.x, a.y + b.y, a.z + b.z⟩

def sub (a b : Vec3) : Vec3 := ⟨a.x - b.x, a.y - b.y, a.z - b.z⟩

def smul (c : ℚ) (a : Vec3) : Vec3 := ⟨c * a.x, c * a.y, c * a.z⟩

/-- `lengthSq` of TSL: squared Euclidean norm. -/
def lengthSq (a : Vec3) : ℚ := a.x * a.x + a.y * a.y + a.z * a.z

/-- three.js `Vector3.lerp(v, alpha)`: `this += (v - this) * alpha`. -/
def lerp (a v : Vec3) (alpha : ℚ) : Vec3 :=
  ⟨a.x + (v.x - a.x) * alpha, a.y + (v.y - a.y) * alpha, a.z + (v.z - a.z) * alpha⟩

end Vec3

/-- Squared distance between two points, as in the update kernel
(`position.sub(otherPosition).lengthSq()`). -/
def distSq (a b : Vec3) : ℚ := Vec3.lengthSq (Vec3.sub a b)

/-- TSL `mix(a, b, t) = a + (b - a) * t`, componentwise. -/
def mixV (a b : Vec3) (t : ℚ) : Vec3 :=
  ⟨a.x + (b.x - a.x) * t, a.y + (b.y - a.y) * t, a.z + (b.z - a.z) * t⟩

/-- TSL `.clamp()` with default bounds `[0, 1]`. -/
def clamp01 (q : ℚ) : ℚ := max 0 (min 1 q)

/-- One slot of the particle-positions storage buffer: `xyz` is the
position, `w` is the life value (`≤ 0` = dead). -/
structure Particle where
  pos : Vec3
  life : ℚ
deriving DecidableEq, Repr

/-- Read slot `j` of the particle buffer (indices used are always in
bounds; the default is an arbitrary dead particle). -/
def partAt (parts : List Particle) (j : ℕ) : Particle :=
  parts.getD j ⟨Vec3.zero, 0⟩

/-- Read slot `j` of the velocity buffer. -/
def velAt (vels : List Vec3) (j : ℕ) : Vec3 :=
  vels.getD j Vec3.zero

/-- Constructor options of `LinkedParticles` (all optional, with the
defaults of the source: `nbParticles ?? 8192`, `nbToSpawn ?? 20`,
`particleLifetime ?? 0.5`, `colorHueOffset ?? 0`). -/
structure LinkedParticlesOptions where
  nbParticles : Option ℕ := none
  particleLifetime : Option ℚ := none
  nbToSpawn : Option ℕ := none
  colorHueOffset : Option ℚ := none

/-- CPU-side state of one `LinkedParticles` emitter, together with the
device-resident particle and velocity buffers it owns. -/
structure LPState where
  nbParticles : ℕ
  nbToSpawn : ℕ
  spawnPosition : Vec3
  previousSpawnPosition : Vec3
  spawnIndex : ℕ
  spawnEnabled : ℚ
  particleLifetime : ℚ
  colorOffset : ℚ
  velocityBias : Vec3
  particles : List Particle
  velocities : List Vec3
  initialized : Bool
deriving DecidableEq, Repr

namespace LinkedParticles

/-- The constructor body of `LinkedParticles` (src/scene/LinkedParticles.ts,
lines 125-188).  It contains no validation and no throw path: every option
set, including `nbParticles = 0`, produces a state.  Buffers are zero-filled
`Float32Array`s, i.e. every slot starts as `⟨0, 0⟩` (dead). -/
def construct (o : LinkedParticlesOptions) : LPState :=
  let n := o.nbParticles.getD 8192
  { nbParticles := n
    nbToSpawn := o.nbToSpawn.getD 20
    spawnPosition := ⟨0, 3/2, -1⟩
    previousSpawnPosition := ⟨0, 3/2, -1⟩
    spawnIndex := 0
    spawnEnabled := 0
    particleLifetime := o.particleLifetime.getD (1/2)
    colorOffset := o.colorHueOffset.getD 0
    velocityBias := Vec3.zero
    particles := List.replicate n ⟨Vec3.zero, 0⟩
    velocities := List.replicate n Vec3.zero
    initialized := false }

/-- The constructor seen as fallible code: since its body contains no
`throw`, it always returns `Except.ok`.  This is the form in which
"construction succeeds/fails" is stated. -/
def constructE (o : LinkedParticlesOptions) : Except String LPState :=
  Except.ok (construct o)

/-- `setSpawnPosition(position)` (lines 427-430): the previous-spawn
uniform receives the old spawn position, then the spawn position is
lerped 10% of the way toward the request. -/
def setSpawnPosition (st : LPState) (position : Vec3) : LPState :=
  { st with
    previousSpawnPosition := st.spawnPosition
    spawnPosition := Vec3.lerp st.spawnPosition position (1/10) }

/-- `setSpawnEnabled(enabled)` (lines 433-435). -/
def setSpawnEnabled (st : LPState) (enabled : Bool) : LPState :=
  { st with spawnEnabled := if enabled then 1 else 0 }

/-- The three compute stages, as dispatched by `compute()`. -/
inductive Stage where
  | init
  | integrate
  | spawn
deriving DecidableEq, Repr

/-- `compute(renderer)` (lines 438-450): dispatches the init stage once
(lazily, guarded by `initialized`), then the update (integrate) stage,
then the spawn stage; finally advances the CPU-side ring cursor by
`nbToSpawn` modulo `nbParticles`, unconditionally.  The returned list is
the dispatch order; the state records the CPU-side mutations (the device
buffers are mutated by the stage semantics, modelled separately). -/
def compute (st : LPState) : LPState × List Stage :=
  let initEffs : List Stage := if st.initialized then [] else [Stage.init]
  ({ st with
      initialized := true
      spawnIndex := (st.spawnIndex + st.nbToSpawn) % st.nbParticles },
    initEffs ++ [Stage.integrate, Stage.spawn])

/-- Device semantics of the init stage (lines 203-211): every slot's
position is parked at `(10000, 10000, 10000)` and its life set to `-1`. -/
def initStep (st : LPState) : LPState :=
  { st with
    particles := st.particles.map (fun _ => ⟨⟨10000, 10000, 10000⟩, -1⟩) }

/-- Oracle for the shader primitives used by the spawn kernel: `sin`,
`cos`, `hash` (a pseudo-random value in `[0,1)` per index) and the value
of `PI`.  Theorems that need trigonometric identities take them as
hypotheses on this structure. -/
structure SpawnEnv where
  sinQ : ℚ → ℚ
  cosQ : ℚ → ℚ
  hashQ : ℕ → ℚ
  piQ : ℚ

/-- The random direction of the spawn kernel (lines 229-235):
`θ = hash(particleIndex)·2π`, `φ = hash(particleIndex+1)·π`,
`rDir = (sin θ cos φ, sin θ sin φ, cos θ)`. -/
def rDirOf (env : SpawnEnv) (particleIndex : ℕ) : Vec3 :=
  let rTheta := env.hashQ particleIndex * (2 * env.piQ)
  let rPhi := env.hashQ (particleIndex + 1) * env.piQ
  ⟨env.sinQ rTheta * env.cosQ rPhi, env.sinQ rTheta * env.sinQ rPhi, env.cosQ rTheta⟩

/-- The slot targeted by spawn instance `i`: `(spawnIndex + i) % nbParticles`
(line 221). -/
def spawnTarget (st : LPState) (i : ℕ) : ℕ :=
  (st.spawnIndex + i) % st.nbParticles

/-- The particle value written by spawn instance `i` (lines 226-240):
life `1`, position `mix(previousSpawnPosition, spawnPosition, clamp(i/(K-1)))`
plus `rDir · 0.01`. -/
def spawnPartVal (env : SpawnEnv) (st : LPState) (i : ℕ) : Particle :=
  let t := clamp01 ((i : ℚ) / ((st.nbToSpawn : ℚ) - 1))
  ⟨Vec3.add (mixV st.previousSpawnPosition st.spawnPosition t)
      (Vec3.smul (1/100) (rDirOf env (spawnTarget st i))), 1⟩

/-- The velocity written by spawn instance `i` (lines 242-244):
`rDir · 5 + bias`. -/
def spawnVelVal (env : SpawnEnv) (st : LPState) (i : ℕ) : Vec3 :=
  Vec3.add (Vec3.smul 5 (rDirOf env (spawnTarget st i))) st.velocityBias

/-- Device semantics of the spawn stage (lines 214-248): the whole kernel
body is guarded by `spawnEnabled ≥ 0.5`; each of the `nbToSpawn` instances
writes only its own target slot (the written values depend only on
uniforms, so the sequential fold is a faithful linearisation of the
parallel dispatch). -/
def spawnStep (env : SpawnEnv) (st : LPState) : LPState :=
  if st.spawnEnabled ≥ 1/2 then
    { st with
      particles := (List.range st.nbToSpawn).foldl
        (fun l i => l.set (spawnTarget st i) (spawnPartVal env st i)) st.particles
      velocities := (List.range st.nbToSpawn).foldl
        (fun l i => l.set (spawnTarget st i) (spawnVelVal env st i)) st.velocities }
  else st

end LinkedParticles

/-! ## Update-stage neighbour search (src/scene/LinkedParticles.ts 280-308) -/

namespace LinkedParticles

/-- Accumulator of the nearest-two scan: the two retained squared
distances (initialised to the `10000.0` sentinel), positions and lives
(initialised to `vec3(0)` / `0`). -/
structure Near2 where
  d1 : ℚ
  p1 : Vec3
  l1 : ℚ
  d2 : ℚ
  p2 : Vec3
  l2 : ℚ
deriving DecidableEq, Repr

def near2Init : Near2 := ⟨10000, Vec3.zero, 0, 10000, Vec3.zero, 0⟩

/-- One iteration of the `Loop(nbParticles, i => ...)` scan: skip self and
dead slots, then compare the squared distance against the two retained
ones with strict `lessThan`, excluding exact zero distances. -/
def near2Step (parts : List Particle) (selfIdx : ℕ) (pos : Vec3)
    (acc : Near2) (j : ℕ) : Near2 :=
  if j ≠ selfIdx ∧ 0 < (partAt parts j).life then
    if distSq pos (partAt parts j).pos < acc.d1 ∧ 0 < distSq pos (partAt parts j).pos then
      ⟨distSq pos (partAt parts j).pos, (partAt parts j).pos, (partAt parts j).life,
        acc.d1, acc.p1, acc.l1⟩
    else if distSq pos (partAt parts j).pos < acc.d2 ∧ 0 < distSq pos (partAt parts j).pos then
      ⟨acc.d1, acc.p1, acc.l1,
        distSq pos (partAt parts j).pos, (partAt parts j).pos, (partAt parts j).life⟩
    else acc
  else acc

/-- The nearest-two-neighbour search run by the update kernel for the
particle at `selfIdx` whose (already-integrated) position is `pos`:
a scan over all `N` slots. -/
def nearestTwo (parts : List Particle) (selfIdx : ℕ) (pos : Vec3) : Near2 :=
  (List.range parts.length).foldl (near2Step parts selfIdx pos) near2Init

/-- Eligibility of slot `j` as a link neighbour of the particle at
`selfIdx` positioned at `pos`: another slot, alive, at nonzero distance. -/
def elig (parts : List Particle) (selfIdx : ℕ) (pos : Vec3) (j : ℕ) : Prop :=
  j ≠ selfIdx ∧ 0 < (partAt parts j).life ∧ 0 < distSq pos (partAt parts j).pos

instance (parts : List Particle) (selfIdx : ℕ) (pos : Vec3) (j : ℕ) :
    Decidable (elig parts selfIdx pos j) := by
  unfold elig; infer_instance

/-- The base of a ribbon's alpha, `max(0.0, min(closestLife, life))`
(lines 336-337); the shader raises it to the power `0.8`, and
`0 ^ 0.8 = 0`, so the alpha vanishes exactly when this base is `0`. -/
def alphaBase (closestLife life : ℚ) : ℚ := max 0 (min closestLife life)

end LinkedParticles

/-! ## RenderLoop (src/core/RenderLoop.ts) -/

/-- State of the frame-loop controller.  Callbacks and sessions are
identified by numeric handles. -/
structure RenderLoop where
  callback : Option ℕ
  xrSession : Option ℕ
  running : Bool
  animationFrameId : Option ℕ
deriving DecidableEq, Repr

/-- Observable scheduling/invocation actions of the loop controller. -/
inductive LoopEff where
  | cancelWindow (id : ℕ)
  | scheduleWindow (id : ℕ)
  | scheduleXR (s : ℕ)
  | invoke (cb : ℕ)
deriving DecidableEq, Repr

namespace RenderLoop

/-- `runNormalLoop()` (lines 139-151): schedules a window tick and stores
its id. -/
def runNormalLoop (st : RenderLoop) (freshId : ℕ) : RenderLoop × List LoopEff :=
  ({ st with animationFrameId := some freshId }, [LoopEff.scheduleWindow freshId])

/-- `runXRLoop()` (lines 154-168): returns if no session is bound, else
schedules a headset tick on the bound session (the id is not stored). -/
def runXRLoop (st : RenderLoop) : RenderLoop × List LoopEff :=
  match st.xrSession with
  | none => (st, [])
  | some s => (st, [LoopEff.scheduleXR s])

/-- `setXRSession(session, newCallback?)` (lines 109-136): cancel a
pending window frame, remember whether the loop was running, install the
session, optionally swap the callback, and re-enter the matching loop
mode only if it was running and a callback is bound. -/
def setXRSession (st : RenderLoop) (session : Option ℕ)
    (newCallback : Option ℕ) (freshId : ℕ) : RenderLoop × List LoopEff :=
  let (st1, effs1) :=
    match st.animationFrameId with
    | some id => ({ st with animationFrameId := none }, [LoopEff.cancelWindow id])
    | none => (st, ([] : List LoopEff))
  let wasRunning := st1.running
  let cb := match newCallback with
    | some c => some c
    | none => st1.callback
  let st2 := { st1 with running := false, xrSession := session, callback := cb }
  if wasRunning ∧ cb ≠ none then
    let st3 := { st2 with running := true }
    match session with
    | some _ =>
      let (st4, effs4) := runXRLoop st3
      (st4, effs1 ++ effs4)
    | none =>
      let (st4, effs4) := runNormalLoop st3 freshId
      (st4, effs1 ++ effs4)
  else (st2, effs1)

/-- A previously scheduled headset tick fires (lines 157-165): it returns
immediately when the loop is stopped or no session is bound — invoking
nothing and rescheduling nothing — else it invokes the callback and
reschedules itself on the currently bound session. -/
def xrTickFire (st : RenderLoop) : RenderLoop × List LoopEff :=
  if st.running = false ∨ st.xrSession = none then (st, [])
  else
    match st.xrSession with
    | none => (st, [])
    | some s =>
      match st.callback with
      | some cb => (st, [LoopEff.invoke cb, LoopEff.scheduleXR s])
      | none => (st, [LoopEff.scheduleXR s])

end RenderLoop

/-! ## XRSessionManager (src/core/XRSessionManager.ts) -/

/-- State of the session lifecycle manager (host objects abstracted to
flags/handles). -/
structure XRSessionManagerState where
  device : Bool
  session : Option ℕ
  hasBinding : Bool
  hasLayer : Bool
  hasRefSpace : Bool
deriving DecidableEq, Repr

/-- Outcome of one `requestSession()` call: the state afterwards, the
raised error (if any), the logged warnings, and how many WebXR host calls
were performed. -/
structure ReqOutcome where
  state : XRSessionManagerState
  thrown : Option String
  warned : List String
  hostCalls : ℕ
deriving DecidableEq, Repr

namespace XRSessionManager

/-- `requestSession()` (lines 28-84): throws when no device has been set,
then when the host lacks WebXR; warns and returns unchanged when a
session is already active; otherwise performs the host negotiation
(abstracted: the granted session handle is a parameter). -/
def requestSession (st : XRSessionManagerState) (hostXR : Bool)
    (granted : ℕ) : ReqOutcome :=
  if st.device = false then
    ⟨st, some "GPU device not set. Call setDevice() first.", [], 0⟩
  else if hostXR = false then
    ⟨st, some "WebXR is not supported", [], 0⟩
  else if st.session.isSome then
    ⟨st, none, ["XR session already active"], 0⟩
  else
    let st2 := { st with session := some granted, hasBinding := true, hasLayer := true, hasRefSpace := true }
    ⟨st2, none, [], 1⟩

end XRSessionManager

/-! ## XRBlitter (src/renderer/XRBlitter.ts) -/

/-- Pipeline cache of the blitter: destination format → pipeline handle,
plus a counter generating fresh handles. -/
structure XRBlitterState where
  pipelineCache : List (String × ℕ)
  nextPipeId : ℕ
deriving DecidableEq, Repr

/-- Destination viewport rectangle of a sub-image. -/
structure Viewport where
  x : ℕ
  y : ℕ
  w : ℕ
  h : ℕ
deriving DecidableEq, Repr

/-- Effects a `blit` call can encode.  `copyRegion` is the vocabulary of
the spec's direct-copy strategy; the source never encodes it. -/
inductive BlitEff where
  | copyRegion (w h : ℕ)
  | quadDraw (layer : ℕ) (pipeline : ℕ) (vp : Viewport)
deriving DecidableEq, Repr

namespace XRBlitter

/-- `getPipeline(targetFormat)` (lines 69-95): return the cached pipeline
for the format if present, else build one, cache it and return it.  The
boolean reports whether a pipeline was built. -/
def getPipeline (st : XRBlitterState) (targetFormat : String) :
    ℕ × XRBlitterState × Bool :=
  match st.pipelineCache.lookup targetFormat with
  | some p => (p, st, false)
  | none =>
    (st.nextPipeId,
      ⟨st.pipelineCache ++ [(targetFormat, st.nextPipeId)], st.nextPipeId + 1⟩,
      true)

/-- `blit(commandEncoder, sourceTexture, xrSubImage, _, eyeIndex)`
(lines 99-172): resolve the destination array layer (`imageIndex` when
supplied, else `eyeIndex`), fetch the pipeline for the destination
format, and encode one full-screen quad draw into that layer — for every
source/destination format combination; no other strategy exists. -/
def blit (st : XRBlitterState) (srcFormat dstFormat : String)
    (imageIndex : Option ℕ) (eyeIndex : ℕ) (vp : Viewport) :
    XRBlitterState × List BlitEff :=
  let layerIndex := imageIndex.getD eyeIndex
  let r := getPipeline st dstFormat
  (r.2.1, [BlitEff.quadDraw layerIndex r.1 vp])

end XRBlitter

/-! ## Per-headset-frame trace (src/main.ts `App.xrRenderFrame`) -/

/-- Inputs of one headset frame: whether the XR bindings
(`xrGpuBinding`/`projectionLayer`/`refSpace`, renderer and blitter) are
present, whether the offscreen source texture exists, and the viewer
pose's view list (`none` = no pose this frame). -/
structure FrameInputs where
  bindingsReady : Bool
  sourceTextureReady : Bool
  pose : Option (List ℕ)
deriving DecidableEq, Repr

/-- Events of one frame, in encode order. -/
inductive FrameEff where
  | sceneUpdate
  | computeOnce
  | renderView (v : ℕ)
  | blitView (v : ℕ)
  | submit
deriving DecidableEq, Repr

/-- Modelled from the spec: the frame handler's single compute invocation.
`App.xrRenderFrame` (src/main.ts lines 142-174) gives the frame skeleton
— early-out on missing bindings, scene update, early-out on a missing
pose or source texture, the per-view render/blit loop, and one combined
queue submission after the loop.  The revision of the main module that
wires `DemoScene.compute` (src/unnamed/part_003 lines 105-110) into this
handler is not in src/ (the src main predates the particle scene: it
neither imports the pointer input the part_003 scene requires nor calls
`compute`); per the spec, the compute stages "run exactly once per frame,
before the per-view loop", which is where `computeOnce` is placed. -/
def xrRenderFrame (inp : FrameInputs) : List FrameEff :=
  if inp.bindingsReady = false then []
  else
    FrameEff.sceneUpdate ::
      (match inp.pose with
       | none => []
       | some views =>
         if inp.sourceTextureReady = false then []
         else
           FrameEff.computeOnce ::
             (views.flatMap (fun v => [FrameEff.renderView v, FrameEff.blitView v]))
             ++ [FrameEff.submit])

/-! ## Invariant of the nearest-two scan, and concrete instances -/

namespace LinkedParticles

/-- Invariant of the nearest-two fold after processing the slot indices in
`L` (a prefix of the scan order): the retained distances are ordered and
bounded by the `10000` sentinel; a slot still at the sentinel carries the
default payload; a retained slot corresponds to an eligible scanned index
(for the first slot, the earliest index attaining the minimum); the first
distance is minimal among scanned eligible indices; and at most one
scanned eligible index lies strictly below the second distance. -/
structure N2Inv (parts : List Particle) (selfIdx : ℕ) (pos : Vec3)
    (L : List ℕ) (acc : Near2) : Prop where
  h12 : acc.d1 ≤ acc.d2
  hub : acc.d2 ≤ 10000
  hdef1 : acc.d1 = 10000 → acc.p1 = Vec3.zero ∧ acc.l1 = 0
  hdef2 : acc.d2 = 10000 → acc.p2 = Vec3.zero ∧ acc.l2 = 0
  hfw : acc.d1 < 10000 → ∃ j ∈ L, elig parts selfIdx pos j ∧
    distSq pos (partAt parts j).pos = acc.d1 ∧
    acc.p1 = (partAt parts j).pos ∧ acc.l1 = (partAt parts j).life ∧
    ∀ k ∈ L, k < j → elig parts selfIdx pos k →
      acc.d1 < distSq pos (partAt parts k).pos
  hsound2 : acc.d2 < 10000 → ∃ j ∈ L, ∃ k ∈ L, j ≠ k ∧
    elig parts selfIdx pos j ∧ elig parts selfIdx pos k ∧
    distSq pos (partAt parts j).pos = acc.d1 ∧
    distSq pos (partAt parts k).pos = acc.d2 ∧
    acc.p2 = (partAt parts k).pos ∧ acc.l2 = (partAt parts k).life
  hmin : ∀ j ∈ L, elig parts selfIdx pos j →
    acc.d1 ≤ distSq pos (partAt parts j).pos
  htwo : ∀ j ∈ L, ∀ k ∈ L, j ≠ k →
    elig parts selfIdx pos j → elig parts selfIdx pos k →
    distSq pos (partAt parts j).pos < acc.d2 →
    distSq pos (partAt parts k).pos < acc.d2 → False

end LinkedParticles

/-! ### Concrete instances used by counterexamples and witnesses -/

/-- Two live particles whose squared distance is exactly the `10000.0`
search sentinel (Euclidean distance 100). -/
def cexParts : List Particle := [⟨⟨0, 0, 0⟩, 1⟩, ⟨⟨100, 0, 0⟩, 1⟩]

/-- Three live particles around the origin (squared distances `1` and `4`
from slot 0). -/
def parts4w : List Particle := [⟨⟨0, 0, 0⟩, 1⟩, ⟨⟨1, 0, 0⟩, 1⟩, ⟨⟨0, 2, 0⟩, 1/2⟩]

/-- A degenerate shader oracle satisfying the Pythagorean identity
(`sin = 0`, `cos = 1`). -/
def env0 : LinkedParticles.SpawnEnv := ⟨fun _ => 0, fun _ => 1, fun _ => 0, 3⟩

/-- The spec's spawn scenario: an emitter with `N = 4`, `K = 2`, spawning
enabled. -/
def st4 : LPState :=
  LinkedParticles.setSpawnEnabled
    (LinkedParticles.construct ⟨some 4, none, some 2, none⟩) true

/-- A running headset-mode loop state (session 7, callback 3, no stored
window frame id, as in headset mode). -/
def loopH : RenderLoop := ⟨some 3, some 7, true, none⟩

/-- The same bound state, not running. -/
def loopIdle : RenderLoop := ⟨some 3, some 7, false, none⟩

/-- A manager state with a device and an active session. -/
def xrmActive : XRSessionManagerState := ⟨true, some 5, true, true, true⟩

/-- A manager state with no device set. -/
def xrmNoDevice : XRSessionManagerState := ⟨false, none, false, false, false⟩

/-- A blitter whose cache already holds a pipeline (handle 42) for the
destination format. -/
def blitCached : XRBlitterState := ⟨[("bgra8unorm", 42)], 43⟩

/-- Frame inputs of a two-view headset frame with everything present. -/
def frame2 : FrameInputs := ⟨true, true, some [0, 1]⟩

/-! ## Helper lemmas -/

theorem lookup_append_of_none {l1 l2 : List (String × ℕ)} {k : String}
    (h : l1.lookup k = none) : (l1 ++ l2).lookup k = l2.lookup k := by
  induction l1 with
  | nil => simp
  | cons a l1 ih =>
    obtain ⟨a1, a2⟩ := a
    cases hk : (k == a1) with
    | false =>
      simp only [List.cons_append, List.lookup, hk] at h ⊢
      exact ih h
    | true =>
      simp only [List.lookup, hk] at h
      exact absurd h (by simp)

theorem vec3_eq_iff (a b : Vec3) : a = b ↔ a.x = b.x ∧ a.y = b.y ∧ a.z = b.z := by
  cases a
  cases b
  simp

/-! ## C9: zero-particle construction -/

/-- C9, counterexample.  The claim states that constructing an emitter
with `nbParticles = 0` "is rejected immediately at construction as a
fatal configuration error" and "does not succeed".  The constructor body
(src/scene/LinkedParticles.ts 125-188) contains no validation and no
throw path: construction with `N = 0` succeeds and yields a
zero-particle emitter state. -/
theorem c9_counterexample :
    (LinkedParticles.constructE ⟨some 0, none, none, none⟩).isOk = true ∧
    (LinkedParticles.construct ⟨some 0, none, none, none⟩).nbParticles = 0 := by
  constructor
  · rfl
  · rfl

/-- C9, amended: the `LinkedParticles` constructor performs no
particle-count validation; it succeeds for every option set — including
`nbParticles = 0` — and simply stores the requested (or default) count. -/
theorem c9_construction_never_rejects (o : LinkedParticlesOptions) :
    (LinkedParticles.constructE o).isOk = true ∧
    (LinkedParticles.construct o).nbParticles = o.nbParticles.getD 8192 ∧
    (LinkedParticles.construct o).particles.length = o.nbParticles.getD 8192 := by
  refine ⟨rfl, rfl, ?_⟩
  simp [LinkedParticles.construct]

/-! ## C10: setSpawnPosition smoothing -/

/-- C10: `setSpawnPosition(p)` copies the old spawn position into the
previous-spawn uniform and moves the spawn position only 10% of the way
toward `p` (`new = old + 0.1·(p − old)`); consequently the stored spawn
position equals the request exactly when it already did before the call,
so the effective spawn source trails the requested position. -/
theorem c10_spawn_position_trails (st : LPState) (p : Vec3) :
    (LinkedParticles.setSpawnPosition st p).previousSpawnPosition = st.spawnPosition ∧
    (LinkedParticles.setSpawnPosition st p).spawnPosition =
      Vec3.add st.spawnPosition (Vec3.smul (1/10) (Vec3.sub p st.spawnPosition)) ∧
    ((LinkedParticles.setSpawnPosition st p).spawnPosition = p ↔ st.spawnPosition = p) := by
  refine ⟨rfl, ?_, ?_⟩
  · simp only [LinkedParticles.setSpawnPosition, Vec3.lerp, Vec3.add, Vec3.smul, Vec3.sub,
      vec3_eq_iff]
    refine ⟨by ring, by ring, by ring⟩
  · simp only [LinkedParticles.setSpawnPosition, Vec3.lerp, vec3_eq_iff]
    constructor
    · rintro ⟨h1, h2, h3⟩
      refine ⟨by linarith, by linarith, by linarith⟩
    · rintro ⟨h1, h2, h3⟩
      refine ⟨by linarith, by linarith, by linarith⟩

/-! ## C2: ring cursor advance -/

/-- C2: every `compute()` call advances the ring spawn cursor by exactly
`nbToSpawn` modulo `nbParticles` — for every state, hence regardless of
the spawn-enabled flag and of how many slots are alive — and the cursor
stays inside the ring. -/
theorem c2_cursor_advances (st : LPState) (h : 0 < st.nbParticles) :
    (LinkedParticles.compute st).1.spawnIndex =
      (st.spawnIndex + st.nbToSpawn) % st.nbParticles ∧
    (LinkedParticles.compute st).1.spawnIndex < st.nbParticles := by
  refine ⟨rfl, ?_⟩
  exact Nat.mod_lt _ h

/-- C2, witness at the spec's `N = 4`, `K = 2` emitter. -/
theorem c2_cursor_advances_witness :
    0 < st4.nbParticles ∧
    ((LinkedParticles.compute st4).1.spawnIndex =
        (st4.spawnIndex + st4.nbToSpawn) % st4.nbParticles ∧
      (LinkedParticles.compute st4).1.spawnIndex < st4.nbParticles) :=
  ⟨by decide, c2_cursor_advances st4 (by decide)⟩

/-! ## C3: stage dispatch order -/

/-- C3: one `compute()` dispatches `Init → Integrate → Spawn` on the
first invocation and `Integrate → Spawn` (in this order, never reversed)
afterwards; the init flag is set by the first invocation, so a second
`compute()` never dispatches Init again. -/
theorem c3_stage_order (st : LPState) :
    (st.initialized = false →
      (LinkedParticles.compute st).2 =
        [LinkedParticles.Stage.init, LinkedParticles.Stage.integrate,
          LinkedParticles.Stage.spawn]) ∧
    (st.initialized = true →
      (LinkedParticles.compute st).2 =
        [LinkedParticles.Stage.integrate, LinkedParticles.Stage.spawn]) ∧
    (LinkedParticles.compute st).1.initialized = true ∧
    (LinkedParticles.compute (LinkedParticles.compute st).1).2 =
      [LinkedParticles.Stage.integrate, LinkedParticles.Stage.spawn] := by
  cases h : st.initialized <;>
    simp [LinkedParticles.compute, h]

/-- C3, witness: a freshly constructed emitter dispatches all three
stages in order, and only the latter two afterwards. -/
theorem c3_stage_order_witness :
    (st4.initialized = false →
      (LinkedParticles.compute st4).2 =
        [LinkedParticles.Stage.init, LinkedParticles.Stage.integrate,
          LinkedParticles.Stage.spawn]) ∧
    (st4.initialized = true →
      (LinkedParticles.compute st4).2 =
        [LinkedParticles.Stage.integrate, LinkedParticles.Stage.spawn]) ∧
    (LinkedParticles.compute st4).1.initialized = true ∧
    (LinkedParticles.compute (LinkedParticles.compute st4).1).2 =
      [LinkedParticles.Stage.integrate, LinkedParticles.Stage.spawn] :=
  c3_stage_order st4

/-! ## C8: requestSession guards -/

/-- C8: `requestSession()` with no device set raises the configuration
error before any WebXR host call (zero host calls, state unchanged); a
request while a session is already active logs a warning and returns
without error, with the state unchanged and no host call. -/
theorem c8_request_session_guards (st : XRSessionManagerState) (hostXR : Bool)
    (granted s : ℕ) :
    (st.device = false →
      XRSessionManager.requestSession st hostXR granted =
        ⟨st, some "GPU device not set. Call setDevice() first.", [], 0⟩) ∧
    (st.device = true → hostXR = true → st.session = some s →
      XRSessionManager.requestSession st hostXR granted =
        ⟨st, none, ["XR session already active"], 0⟩) := by
  constructor
  · intro h
    simp [XRSessionManager.requestSession, h]
  · intro hd hx hs
    simp [XRSessionManager.requestSession, hd, hx, hs]

/-- C8, witness: a no-device state and a device-plus-active-session
state. -/
theorem c8_request_session_guards_witness :
    (XRSessionManager.requestSession xrmNoDevice true 9 =
      ⟨xrmNoDevice, some "GPU device not set. Call setDevice() first.", [], 0⟩) ∧
    (XRSessionManager.requestSession xrmActive true 9 =
      ⟨xrmActive, none, ["XR session already active"], 0⟩) :=
  ⟨(c8_request_session_guards xrmNoDevice true 9 5).1 rfl,
    (c8_request_session_guards xrmActive true 9 5).2 rfl rfl rfl⟩

/-! ## C6: setSession(null) while running -/

/-- C6: with the loop in headset mode, `setXRSession(null)` transfers the
currently bound callback (no new one is supplied), resumes windowed
ticking (a window frame is scheduled and its id stored), schedules
nothing on the old session and invokes nothing synchronously; the
previously scheduled headset tick is dead: firing it in the new state
invokes no callback and reschedules nothing.  If the loop was not
running, the same call leaves it idle: nothing is scheduled at all. -/
theorem c6_set_session_null (st : RenderLoop) (s cb freshId : ℕ)
    (r : RenderLoop × List LoopEff)
    (hs : st.xrSession = some s) (hcb : st.callback = some cb)
    (hr : r = RenderLoop.setXRSession st none none freshId) :
    (st.running = true →
      r.1.callback = some cb ∧
      r.1.running = true ∧
      r.1.xrSession = none ∧
      r.1.animationFrameId = some freshId ∧
      LoopEff.scheduleWindow freshId ∈ r.2 ∧
      (∀ c, LoopEff.invoke c ∉ r.2) ∧
      (∀ s2, LoopEff.scheduleXR s2 ∉ r.2) ∧
      RenderLoop.xrTickFire r.1 = (r.1, [])) ∧
    (st.running = false →
      r.1.running = false ∧
      (∀ i, LoopEff.scheduleWindow i ∉ r.2) ∧
      (∀ s2, LoopEff.scheduleXR s2 ∉ r.2) ∧
      (∀ c, LoopEff.invoke c ∉ r.2) ∧
      RenderLoop.xrTickFire r.1 = (r.1, [])) := by
  subst hr
  obtain ⟨cbf, xrf, run, afid⟩ := st
  simp only at hs hcb
  subst hs hcb
  cases afid with
  | none =>
    cases run <;>
      simp [RenderLoop.setXRSession, RenderLoop.runNormalLoop, RenderLoop.runXRLoop,
        RenderLoop.xrTickFire]
  | some oldId =>
    cases run <;>
      simp [RenderLoop.setXRSession, RenderLoop.runNormalLoop, RenderLoop.runXRLoop,
        RenderLoop.xrTickFire]

/-- C6, witness: a running headset loop resumes windowed; an idle one
stays idle. -/
theorem c6_set_session_null_witness :
    (RenderLoop.setXRSession loopH none none 11).1.running = true ∧
    (RenderLoop.setXRSession loopIdle none none 11).1.running = false :=
  ⟨((c6_set_session_null loopH 7 3 11 _ rfl rfl rfl).1 rfl).2.1,
    ((c6_set_session_null loopIdle 7 3 11 _ rfl rfl rfl).2 rfl).1⟩

/-! ## C7: transfer strategy -/

/-- C7, counterexample.  The claim states that a direct region copy is
used when source and destination pixel formats match.  `XRBlitter.blit`
(src/renderer/XRBlitter.ts 99-172) never compares the formats and has no
copy path: here both formats are `rgba8unorm`, yet the encoded work is
exactly one full-screen quad draw (after building and caching the
pipeline for the destination format) and no copy. -/
theorem c7_counterexample :
    XRBlitter.blit ⟨[], 0⟩ "rgba8unorm" "rgba8unorm" none 0 ⟨0, 0, 8, 8⟩ =
      (⟨[("rgba8unorm", 0)], 1⟩, [BlitEff.quadDraw 0 0 ⟨0, 0, 8, 8⟩]) := by
  rfl

/-- C7, amended: every per-view transfer is the full-screen textured-quad
draw into the resolved destination array layer, whatever the source and
destination formats are (no direct-copy path exists); the quad pipeline
is built at most once per distinct destination format — a cached format
is returned as-is, and a repeated `blit` with the same destination
format reuses the identical pipeline and leaves the cache unchanged. -/
theorem c7_blit_quad_and_cache (st : XRBlitterState) (srcF dstF : String)
    (ii : Option ℕ) (ei p : ℕ) (vp : Viewport) :
    (∃ q, (XRBlitter.blit st srcF dstF ii ei vp).2 =
        [BlitEff.quadDraw (ii.getD ei) q vp]) ∧
    (∀ w h, BlitEff.copyRegion w h ∉ (XRBlitter.blit st srcF dstF ii ei vp).2) ∧
    (st.pipelineCache.lookup dstF = some p →
      XRBlitter.getPipeline st dstF = (p, st, false)) ∧
    ((XRBlitter.blit (XRBlitter.blit st srcF dstF ii ei vp).1 srcF dstF ii ei vp).1 =
        (XRBlitter.blit st srcF dstF ii ei vp).1 ∧
      (XRBlitter.blit (XRBlitter.blit st srcF dstF ii ei vp).1 srcF dstF ii ei vp).2 =
        (XRBlitter.blit st srcF dstF ii ei vp).2) := by
  refine ⟨?_, ?_, ?_, ?_⟩
  · cases h : st.pipelineCache.lookup dstF with
    | none =>
      exact ⟨st.nextPipeId, by simp [XRBlitter.blit, XRBlitter.getPipeline, h]⟩
    | some p0 =>
      exact ⟨p0, by simp [XRBlitter.blit, XRBlitter.getPipeline, h]⟩
  · intro w hgt
    cases h : st.pipelineCache.lookup dstF <;>
      simp [XRBlitter.blit, XRBlitter.getPipeline, h]
  · intro hp
    simp [XRBlitter.getPipeline, hp]
  · cases h : st.pipelineCache.lookup dstF with
    | some p0 =>
      constructor <;> simp [XRBlitter.blit, XRBlitter.getPipeline, h]
    | none =>
      have h2 : ((st.pipelineCache ++ [(dstF, st.nextPipeId)]).lookup dstF) =
          some st.nextPipeId := by
        rw [lookup_append_of_none h]
        simp [List.lookup]
      constructor <;>
        simp [XRBlitter.blit, XRBlitter.getPipeline, h, h2]

/-- C7 amended-claim witness: a cached destination format is returned
without rebuilding. -/
theorem c7_blit_quad_and_cache_witness :
    XRBlitter.getPipeline blitCached "bgra8unorm" = (42, blitCached, false) :=
  (c7_blit_quad_and_cache blitCached "rgba8unorm" "bgra8unorm" none 0 42
    ⟨0, 0, 8, 8⟩).2.2.1 rfl

/-! ## C1: once-per-frame compute and single submission -/

theorem count_flatMap_pair_eq_zero (views : List ℕ) (e : FrameEff)
    (he1 : ∀ v, e ≠ FrameEff.renderView v) (he2 : ∀ v, e ≠ FrameEff.blitView v) :
    (views.flatMap (fun v => [FrameEff.renderView v, FrameEff.blitView v])).count e = 0 := by
  induction views with
  | nil => rfl
  | cons v vs ih =>
    have h1 := he1 v
    have h2 := he2 v
    simp only [List.flatMap_cons, List.count_append, ih, List.count_cons]
    simp [List.count_nil, Ne.symm h1, Ne.symm h2]

/-- C1: for a headset frame whose viewer pose has at least one view, the
frame trace is exactly one scene update, one compute invocation, the
per-view render/blit pairs, and one final combined submission: the
compute stages run exactly once — before every per-view render, never
once per eye — and exactly one queue submission is issued, after all
views. -/
theorem c1_compute_once_single_submit (inp : FrameInputs) (views : List ℕ)
    (hb : inp.bindingsReady = true) (ht : inp.sourceTextureReady = true)
    (hp : inp.pose = some views) (hv : views ≠ []) :
    xrRenderFrame inp =
      FrameEff.sceneUpdate :: FrameEff.computeOnce ::
        (views.flatMap (fun v => [FrameEff.renderView v, FrameEff.blitView v]) ++
          [FrameEff.submit]) ∧
    (xrRenderFrame inp).count FrameEff.computeOnce = 1 ∧
    (xrRenderFrame inp).count FrameEff.submit = 1 ∧
    (∃ v, FrameEff.renderView v ∈ xrRenderFrame inp) := by
  have he : xrRenderFrame inp =
      FrameEff.sceneUpdate :: FrameEff.computeOnce ::
        (views.flatMap (fun v => [FrameEff.renderView v, FrameEff.blitView v]) ++
          [FrameEff.submit]) := by
    simp [xrRenderFrame, hb, ht, hp]
  refine ⟨he, ?_, ?_, ?_⟩
  · rw [he]
    simp [List.count_cons, List.count_append,
      count_flatMap_pair_eq_zero views FrameEff.computeOnce
        (by intro v h; cases h) (by intro v h; cases h)]
  · rw [he]
    simp [List.count_cons, List.count_append,
      count_flatMap_pair_eq_zero views FrameEff.submit
        (by intro v h; cases h) (by intro v h; cases h)]
  · cases views with
    | nil => exact absurd rfl hv
    | cons v vs =>
      refine ⟨v, ?_⟩
      rw [he]
      simp [List.flatMap_cons]

/-- C1, witness: a two-view frame. -/
theorem c1_compute_once_single_submit_witness :
    (xrRenderFrame frame2).count FrameEff.computeOnce = 1 ∧
    (xrRenderFrame frame2).count FrameEff.submit = 1 :=
  ⟨(c1_compute_once_single_submit frame2 [0, 1] rfl rfl rfl (by simp)).2.1,
    (c1_compute_once_single_submit frame2 [0, 1] rfl rfl rfl (by simp)).2.2.1⟩

/-! ## C5: spawn-stage semantics -/

theorem set_getD_ne {α : Type} (l : List α) (i j : ℕ) (a d : α) (h : i ≠ j) :
    (l.set i a).getD j d = l.getD j d := by
  rw [List.getD_eq_getElem?_getD, List.getElem?_set_ne h, List.getD_eq_getElem?_getD]

theorem set_getD_self {α : Type} (l : List α) (i : ℕ) (a d : α) (h : i < l.length) :
    (l.set i a).getD i d = a := by
  rw [List.getD_eq_getElem?_getD, List.getElem?_set_self']
  simp [Nat.lt_iff_add_one_le, h]

theorem foldl_set_length {α : Type} (K : ℕ) (tf : ℕ → ℕ) (vals : ℕ → α)
    (l0 : List α) :
    ((List.range K).foldl (fun l j => l.set (tf j) (vals j)) l0).length = l0.length := by
  induction K with
  | zero => rfl
  | succ n ih =>
    rw [List.range_succ, List.foldl_append]
    simp [ih]

theorem foldl_set_getD_of_ne {α : Type} (K : ℕ) (tf : ℕ → ℕ) (vals : ℕ → α)
    (l0 : List α) (d : α) (t : ℕ) (h : ∀ i, i < K → t ≠ tf i) :
    ((List.range K).foldl (fun l j => l.set (tf j) (vals j)) l0).getD t d =
      l0.getD t d := by
  induction K with
  | zero => rfl
  | succ n ih =>
    rw [List.range_succ, List.foldl_append]
    simp only [List.foldl_cons, List.foldl_nil]
    rw [set_getD_ne _ _ _ _ _ (fun he => h n (Nat.lt_succ_self n) he.symm)]
    exact ih (fun i hi => h i (Nat.lt_succ_of_lt hi))

theorem foldl_set_getD_target {α : Type} (K : ℕ) (tf : ℕ → ℕ) (vals : ℕ → α)
    (l0 : List α) (d : α)
    (hinj : ∀ i j, i < K → j < K → tf i = tf j → i = j)
    (hlt : ∀ i, i < K → tf i < l0.length) :
    ∀ i, i < K →
      ((List.range K).foldl (fun l j => l.set (tf j) (vals j)) l0).getD (tf i) d =
        vals i := by
  induction K with
  | zero => intro i hi; omega
  | succ n ih =>
    intro i hi
    rw [List.range_succ, List.foldl_append]
    simp only [List.foldl_cons, List.foldl_nil]
    rcases Nat.lt_succ_iff_lt_or_eq.mp hi with hlt2 | heq
    · have hne : tf n ≠ tf i := by
        intro he
        have := hinj n i (Nat.lt_succ_self n) (Nat.lt_succ_of_lt hlt2) he
        omega
      rw [set_getD_ne _ _ _ _ _ hne]
      exact ih (fun a b ha hb => hinj a b (Nat.lt_succ_of_lt ha) (Nat.lt_succ_of_lt hb))
        (fun a ha => hlt a (Nat.lt_succ_of_lt ha)) i hlt2
    · subst heq
      have hlen : tf i <
          ((List.range i).foldl (fun l j => l.set (tf j) (vals j)) l0).length := by
        rw [foldl_set_length]
        exact hlt i (Nat.lt_succ_self i)
      exact set_getD_self _ _ _ _ hlen

theorem spawnTarget_lt (st : LPState) (h : 0 < st.nbParticles) (i : ℕ) :
    LinkedParticles.spawnTarget st i < st.nbParticles :=
  Nat.mod_lt _ h

theorem spawnTarget_inj (st : LPState) (hKN : st.nbToSpawn ≤ st.nbParticles)
    (i j : ℕ) (hi : i < st.nbToSpawn) (hj : j < st.nbToSpawn)
    (h : LinkedParticles.spawnTarget st i = LinkedParticles.spawnTarget st j) :
    i = j := by
  have hmod : Nat.ModEq st.nbParticles (st.spawnIndex + i) (st.spawnIndex + j) := h
  have h2 : i % st.nbParticles = j % st.nbParticles :=
    Nat.ModEq.add_left_cancel' st.spawnIndex hmod
  rw [Nat.mod_eq_of_lt (lt_of_lt_of_le hi hKN),
    Nat.mod_eq_of_lt (lt_of_lt_of_le hj hKN)] at h2
  exact h2

/-- C5: the spawn stage mutates nothing unless the enabled flag is set
(`spawnEnabled ≥ 0.5`); when set, each of the `K = nbToSpawn` batch
instances writes exactly slot `(cursor + i) mod N`: life becomes exactly
`1`, the position becomes the interpolation of the previous and current
spawn-source positions at `t = i/(K−1)` plus the random direction scaled
by the fixed radius `0.01`, the velocity becomes the random direction
times the fixed speed `5` plus the emitter's bias; all other slots are
untouched.  Under the Pythagorean identity for the oracle's `sin`/`cos`,
the random direction is a unit vector, so the positional offset lies on
a sphere of squared radius `1/10000` and the velocity minus the bias has
squared length `25`. -/
theorem c5_spawn_stage (env : LinkedParticles.SpawnEnv) (st : LPState)
    (hK : 2 ≤ st.nbToSpawn) (hKN : st.nbToSpawn ≤ st.nbParticles)
    (hlen : st.particles.length = st.nbParticles)
    (hvlen : st.velocities.length = st.nbParticles) :
    (st.spawnEnabled < 1/2 → LinkedParticles.spawnStep env st = st) ∧
    (st.spawnEnabled ≥ 1/2 →
      (∀ i, i < st.nbToSpawn →
        partAt (LinkedParticles.spawnStep env st).particles
            (LinkedParticles.spawnTarget st i) = LinkedParticles.spawnPartVal env st i ∧
        velAt (LinkedParticles.spawnStep env st).velocities
            (LinkedParticles.spawnTarget st i) = LinkedParticles.spawnVelVal env st i) ∧
      (∀ t, (∀ i, i < st.nbToSpawn → t ≠ LinkedParticles.spawnTarget st i) →
        partAt (LinkedParticles.spawnStep env st).particles t = partAt st.particles t ∧
        velAt (LinkedParticles.spawnStep env st).velocities t = velAt st.velocities t)) ∧
    (∀ i, i < st.nbToSpawn →
      (LinkedParticles.spawnPartVal env st i).life = 1 ∧
      (LinkedParticles.spawnPartVal env st i).pos =
        Vec3.add
          (mixV st.previousSpawnPosition st.spawnPosition
            ((i : ℚ) / ((st.nbToSpawn : ℚ) - 1)))
          (Vec3.smul (1/100) (LinkedParticles.rDirOf env (LinkedParticles.spawnTarget st i))) ∧
      LinkedParticles.spawnVelVal env st i =
        Vec3.add (Vec3.smul 5 (LinkedParticles.rDirOf env (LinkedParticles.spawnTarget st i)))
          st.velocityBias) ∧
    ((∀ q, env.sinQ q * env.sinQ q + env.cosQ q * env.cosQ q = 1) →
      (∀ n, Vec3.lengthSq (LinkedParticles.rDirOf env n) = 1) ∧
      (∀ i,
        distSq (LinkedParticles.spawnPartVal env st i).pos
          (mixV st.previousSpawnPosition st.spawnPosition
            (clamp01 ((i : ℚ) / ((st.nbToSpawn : ℚ) - 1)))) = 1/10000 ∧
        Vec3.lengthSq (Vec3.sub (LinkedParticles.spawnVelVal env st i)
          st.velocityBias) = 25)) := by
  have hN : 0 < st.nbParticles := lt_of_lt_of_le (by omega) hKN
  have hrdir : ∀ (hPy : ∀ q, env.sinQ q * env.sinQ q + env.cosQ q * env.cosQ q = 1)
      (n : ℕ), Vec3.lengthSq (LinkedParticles.rDirOf env n) = 1 := by
    intro hPy n
    unfold LinkedParticles.rDirOf Vec3.lengthSq
    have h1 := hPy (env.hashQ n * (2 * env.piQ))
    have h2 := hPy (env.hashQ (n + 1) * env.piQ)
    dsimp only
    linear_combination
      (env.sinQ (env.hashQ n * (2 * env.piQ)) *
        env.sinQ (env.hashQ n * (2 * env.piQ))) * h2 + h1
  refine ⟨?_, ?_, ?_, ?_⟩
  · intro h
    unfold LinkedParticles.spawnStep
    rw [if_neg (not_le.mpr h)]
  · intro henb
    have hstepP : (LinkedParticles.spawnStep env st).particles =
        (List.range st.nbToSpawn).foldl
          (fun l j => l.set (LinkedParticles.spawnTarget st j)
            (LinkedParticles.spawnPartVal env st j)) st.particles := by
      unfold LinkedParticles.spawnStep
      rw [if_pos henb]
    have hstepV : (LinkedParticles.spawnStep env st).velocities =
        (List.range st.nbToSpawn).foldl
          (fun l j => l.set (LinkedParticles.spawnTarget st j)
            (LinkedParticles.spawnVelVal env st j)) st.velocities := by
      unfold LinkedParticles.spawnStep
      rw [if_pos henb]
    constructor
    · intro i hi
      constructor
      · rw [hstepP]
        exact foldl_set_getD_target st.nbToSpawn (LinkedParticles.spawnTarget st)
          (LinkedParticles.spawnPartVal env st) st.particles _
          (fun a b ha hb => spawnTarget_inj st hKN a b ha hb)
          (fun a _ => by rw [hlen]; exact spawnTarget_lt st hN a) i hi
      · rw [hstepV]
        exact foldl_set_getD_target st.nbToSpawn (LinkedParticles.spawnTarget st)
          (LinkedParticles.spawnVelVal env st) st.velocities _
          (fun a b ha hb => spawnTarget_inj st hKN a b ha hb)
          (fun a _ => by rw [hvlen]; exact spawnTarget_lt st hN a) i hi
    · intro t ht
      constructor
      · rw [hstepP]
        exact foldl_set_getD_of_ne st.nbToSpawn (LinkedParticles.spawnTarget st)
          (LinkedParticles.spawnPartVal env st) st.particles _ t ht
      · rw [hstepV]
        exact foldl_set_getD_of_ne st.nbToSpawn (LinkedParticles.spawnTarget st)
          (LinkedParticles.spawnVelVal env st) st.velocities _ t ht
  · intro i hi
    have hcl : clamp01 ((i : ℚ) / ((st.nbToSpawn : ℚ) - 1)) =
        (i : ℚ) / ((st.nbToSpawn : ℚ) - 1) := by
      have hKQ : (2 : ℚ) ≤ (st.nbToSpawn : ℚ) := by exact_mod_cast hK
      have hden : (0 : ℚ) < (st.nbToSpawn : ℚ) - 1 := by linarith
      have hiK : (i : ℚ) ≤ (st.nbToSpawn : ℚ) - 1 := by
        have : (i : ℚ) + 1 ≤ (st.nbToSpawn : ℚ) := by exact_mod_cast hi
        linarith
      have h0 : (0 : ℚ) ≤ (i : ℚ) / ((st.nbToSpawn : ℚ) - 1) :=
        div_nonneg (by positivity) (le_of_lt hden)
      have h1 : (i : ℚ) / ((st.nbToSpawn : ℚ) - 1) ≤ 1 :=
        (div_le_one hden).mpr hiK
      unfold clamp01
      rw [min_eq_right h1, max_eq_right h0]
    refine ⟨rfl, ?_, rfl⟩
    unfold LinkedParticles.spawnPartVal
    rw [hcl]
  · intro hPy
    refine ⟨hrdir hPy, ?_⟩
    intro i
    constructor
    · unfold LinkedParticles.spawnPartVal distSq
      have hu := hrdir hPy (LinkedParticles.spawnTarget st i)
      unfold Vec3.lengthSq at hu ⊢
      unfold Vec3.sub Vec3.add Vec3.smul
      dsimp only
      linear_combination (1/10000 : ℚ) * hu
    · unfold LinkedParticles.spawnVelVal
      have hu := hrdir hPy (LinkedParticles.spawnTarget st i)
      unfold Vec3.lengthSq at hu ⊢
      unfold Vec3.sub Vec3.add Vec3.smul
      dsimp only
      linear_combination (25 : ℚ) * hu

/-- C5, witness: the spec's scenario `N = 4`, `K = 2`, enabled, applied
through the theorem — both targeted slots get life exactly `1`. -/
theorem c5_spawn_stage_witness :
    partAt (LinkedParticles.spawnStep env0 st4).particles
        (LinkedParticles.spawnTarget st4 0) = LinkedParticles.spawnPartVal env0 st4 0 ∧
    partAt (LinkedParticles.spawnStep env0 st4).particles
        (LinkedParticles.spawnTarget st4 1) = LinkedParticles.spawnPartVal env0 st4 1 ∧
    (LinkedParticles.spawnPartVal env0 st4 0).life = 1 ∧
    (LinkedParticles.spawnPartVal env0 st4 1).life = 1 :=
  ⟨(((c5_spawn_stage env0 st4 (by decide) (by decide) rfl rfl).2.1 (by norm_num
      [st4, LinkedParticles.setSpawnEnabled, LinkedParticles.construct])).1 0
      (by decide)).1,
    (((c5_spawn_stage env0 st4 (by decide) (by decide) rfl rfl).2.1 (by norm_num
      [st4, LinkedParticles.setSpawnEnabled, LinkedParticles.construct])).1 1
      (by decide)).1,
    ((c5_spawn_stage env0 st4 (by decide) (by decide) rfl rfl).2.2.1 0 (by decide)).1,
    ((c5_spawn_stage env0 st4 (by decide) (by decide) rfl rfl).2.2.1 1 (by decide)).1⟩

/-! ## C4: nearest-two neighbour search -/

theorem n2inv_extend_not_elig (parts : List Particle) (selfIdx : ℕ) (pos : Vec3)
    (L : List ℕ) (acc : LinkedParticles.Near2) (m : ℕ)
    (h : LinkedParticles.N2Inv parts selfIdx pos L acc)
    (hne : ¬ LinkedParticles.elig parts selfIdx pos m) :
    LinkedParticles.N2Inv parts selfIdx pos (L ++ [m]) acc := by
  obtain ⟨h12, hub, hdef1, hdef2, hfw, hsound2, hmin, htwo⟩ := h
  refine ⟨h12, hub, hdef1, hdef2, ?_, ?_, ?_, ?_⟩
  · intro hd
    obtain ⟨j, hjL, hjE, hjd, hjp, hjl, hjfw⟩ := hfw hd
    refine ⟨j, by simp [hjL], hjE, hjd, hjp, hjl, ?_⟩
    intro k hk hkj hkE
    rcases List.mem_append.mp hk with hk | hk
    · exact hjfw k hk hkj hkE
    · rw [List.mem_singleton] at hk
      subst hk
      exact absurd hkE hne
  · intro hd
    obtain ⟨j, hjL, k, hkL, hjk, hjE, hkE, hjd, hkd, hkp, hkl⟩ := hsound2 hd
    exact ⟨j, by simp [hjL], k, by simp [hkL], hjk, hjE, hkE, hjd, hkd, hkp, hkl⟩
  · intro j hj hjE
    rcases List.mem_append.mp hj with hj | hj
    · exact hmin j hj hjE
    · rw [List.mem_singleton] at hj
      subst hj
      exact absurd hjE hne
  · intro j hj k hk hjk hjE hkE hjd hkd
    rcases List.mem_append.mp hj with hj | hj
    · rcases List.mem_append.mp hk with hk | hk
      · exact htwo j hj k hk hjk hjE hkE hjd hkd
      · rw [List.mem_singleton] at hk
        subst hk
        exact absurd hkE hne
    · rw [List.mem_singleton] at hj
      subst hj
      exact absurd hjE hne

theorem n2inv_extend_no_update (parts : List Particle) (selfIdx : ℕ) (pos : Vec3)
    (L : List ℕ) (acc : LinkedParticles.Near2) (m : ℕ)
    (h : LinkedParticles.N2Inv parts selfIdx pos L acc)
    (he : LinkedParticles.elig parts selfIdx pos m)
    (hd1 : acc.d1 ≤ distSq pos (partAt parts m).pos)
    (hd2 : acc.d2 ≤ distSq pos (partAt parts m).pos)
    (hfresh : ∀ k ∈ L, k < m) :
    LinkedParticles.N2Inv parts selfIdx pos (L ++ [m]) acc := by
  obtain ⟨h12, hub, hdef1, hdef2, hfw, hsound2, hmin, htwo⟩ := h
  refine ⟨h12, hub, hdef1, hdef2, ?_, ?_, ?_, ?_⟩
  · intro hd
    obtain ⟨j, hjL, hjE, hjd, hjp, hjl, hjfw⟩ := hfw hd
    refine ⟨j, by simp [hjL], hjE, hjd, hjp, hjl, ?_⟩
    intro k hk hkj hkE
    rcases List.mem_append.mp hk with hk | hk
    · exact hjfw k hk hkj hkE
    · rw [List.mem_singleton] at hk
      subst hk
      exact absurd hkj (by have := hfresh j hjL; omega)
  · intro hd
    obtain ⟨j, hjL, k, hkL, hjk, hjE, hkE, hjd, hkd, hkp, hkl⟩ := hsound2 hd
    exact ⟨j, by simp [hjL], k, by simp [hkL], hjk, hjE, hkE, hjd, hkd, hkp, hkl⟩
  · intro j hj hjE
    rcases List.mem_append.mp hj with hj | hj
    · exact hmin j hj hjE
    · rw [List.mem_singleton] at hj
      subst hj
      exact hd1
  · intro j hj k hk hjk hjE hkE hjd hkd
    rcases List.mem_append.mp hj with hj | hj
    · rcases List.mem_append.mp hk with hk | hk
      · exact htwo j hj k hk hjk hjE hkE hjd hkd
      · rw [List.mem_singleton] at hk
        subst hk
        exact absurd (lt_of_lt_of_le hkd hd2) (lt_irrefl _)
    · rw [List.mem_singleton] at hj
      subst hj
      exact absurd (lt_of_lt_of_le hjd hd2) (lt_irrefl _)

theorem n2inv_extend_branch1 (parts : List Particle) (selfIdx : ℕ) (pos : Vec3)
    (L : List ℕ) (acc : LinkedParticles.Near2) (m : ℕ)
    (h : LinkedParticles.N2Inv parts selfIdx pos L acc)
    (he : LinkedParticles.elig parts selfIdx pos m)
    (hlt : distSq pos (partAt parts m).pos < acc.d1)
    (hfresh : ∀ k ∈ L, k < m) :
    LinkedParticles.N2Inv parts selfIdx pos (L ++ [m])
      ⟨distSq pos (partAt parts m).pos, (partAt parts m).pos, (partAt parts m).life,
        acc.d1, acc.p1, acc.l1⟩ := by
  obtain ⟨h12, hub, hdef1, hdef2, hfw, hsound2, hmin, htwo⟩ := h
  have hdm : distSq pos (partAt parts m).pos < 10000 :=
    lt_of_lt_of_le hlt (le_trans h12 hub)
  refine ⟨le_of_lt hlt, le_trans h12 hub, ?_, hdef1, ?_, ?_, ?_, ?_⟩
  · intro hd
    exact absurd hd (ne_of_lt hdm)
  · intro _
    refine ⟨m, by simp, he, rfl, rfl, rfl, ?_⟩
    intro k hk hkm hkE
    rcases List.mem_append.mp hk with hk | hk
    · exact lt_of_lt_of_le hlt (hmin k hk hkE)
    · rw [List.mem_singleton] at hk
      subst hk
      exact absurd hkm (lt_irrefl _)
  · intro hd
    obtain ⟨j, hjL, hjE, hjd, hjp, hjl, _⟩ := hfw hd
    refine ⟨m, by simp, j, by simp [hjL], ?_, he, hjE, rfl, hjd, hjp, hjl⟩
    have := hfresh j hjL
    omega
  · intro j hj hjE
    rcases List.mem_append.mp hj with hj | hj
    · exact le_of_lt (lt_of_lt_of_le hlt (hmin j hj hjE))
    · rw [List.mem_singleton] at hj
      subst hj
      exact le_refl _
  · intro j hj k hk hjk hjE hkE hjd hkd
    rcases List.mem_append.mp hj with hj | hj
    · exact absurd hjd (not_lt.mpr (hmin j hj hjE))
    · rw [List.mem_singleton] at hj
      subst hj
      rcases List.mem_append.mp hk with hk | hk
      · exact absurd hkd (not_lt.mpr (hmin k hk hkE))
      · rw [List.mem_singleton] at hk
        subst hk
        exact hjk rfl

theorem n2inv_extend_branch2 (parts : List Particle) (selfIdx : ℕ) (pos : Vec3)
    (L : List ℕ) (acc : LinkedParticles.Near2) (m : ℕ)
    (h : LinkedParticles.N2Inv parts selfIdx pos L acc)
    (he : LinkedParticles.elig parts selfIdx pos m)
    (hge : acc.d1 ≤ distSq pos (partAt parts m).pos)
    (hlt2 : distSq pos (partAt parts m).pos < acc.d2)
    (hfresh : ∀ k ∈ L, k < m) :
    LinkedParticles.N2Inv parts selfIdx pos (L ++ [m])
      ⟨acc.d1, acc.p1, acc.l1,
        distSq pos (partAt parts m).pos, (partAt parts m).pos,
        (partAt parts m).life⟩ := by
  obtain ⟨h12, hub, hdef1, hdef2, hfw, hsound2, hmin, htwo⟩ := h
  have hdm : distSq pos (partAt parts m).pos < 10000 := lt_of_lt_of_le hlt2 hub
  have hd1lt : acc.d1 < 10000 := lt_of_le_of_lt hge hdm
  refine ⟨hge, le_of_lt hdm, ?_, ?_, ?_, ?_, ?_, ?_⟩
  · intro hd
    exact absurd hd (ne_of_lt hd1lt)
  · intro hd
    exact absurd hd (ne_of_lt hdm)
  · intro _
    obtain ⟨j, hjL, hjE, hjd, hjp, hjl, hjfw⟩ := hfw hd1lt
    refine ⟨j, by simp [hjL], hjE, hjd, hjp, hjl, ?_⟩
    intro k hk hkj hkE
    rcases List.mem_append.mp hk with hk | hk
    · exact hjfw k hk hkj hkE
    · rw [List.mem_singleton] at hk
      subst hk
      exact absurd hkj (by have := hfresh j hjL; omega)
  · intro _
    obtain ⟨j, hjL, hjE, hjd, hjp, hjl, _⟩ := hfw hd1lt
    refine ⟨j, by simp [hjL], m, by simp, ?_, hjE, he, hjd, rfl, rfl, rfl⟩
    have := hfresh j hjL
    omega
  · intro j hj hjE
    rcases List.mem_append.mp hj with hj | hj
    · exact hmin j hj hjE
    · rw [List.mem_singleton] at hj
      subst hj
      exact hge
  · intro j hj k hk hjk hjE hkE hjd hkd
    rcases List.mem_append.mp hj with hj | hj
    · rcases List.mem_append.mp hk with hk | hk
      · exact htwo j hj k hk hjk hjE hkE (lt_trans hjd hlt2) (lt_trans hkd hlt2)
      · rw [List.mem_singleton] at hk
        subst hk
        exact absurd hkd (lt_irrefl _)
    · rw [List.mem_singleton] at hj
      subst hj
      exact absurd hjd (lt_irrefl _)

theorem near2_foldl_inv (parts : List Particle) (selfIdx : ℕ) (pos : Vec3)
    (rest : List ℕ) :
    ∀ (L : List ℕ) (acc : LinkedParticles.Near2),
      (∀ k ∈ L, ∀ m ∈ rest, k < m) → rest.Pairwise (· < ·) →
      LinkedParticles.N2Inv parts selfIdx pos L acc →
      LinkedParticles.N2Inv parts selfIdx pos (L ++ rest)
        (rest.foldl (LinkedParticles.near2Step parts selfIdx pos) acc) := by
  induction rest with
  | nil =>
    intro L acc _ _ h
    simpa using h
  | cons m rest ih =>
    intro L acc hfresh hpw h
    have hfr : ∀ k ∈ L, k < m := fun k hk => hfresh k hk m (List.mem_cons_self m rest)
    have hstep : LinkedParticles.N2Inv parts selfIdx pos (L ++ [m])
        (LinkedParticles.near2Step parts selfIdx pos acc m) := by
      unfold LinkedParticles.near2Step
      by_cases hg : m ≠ selfIdx ∧ 0 < (partAt parts m).life
      · rw [if_pos hg]
        by_cases h1 : distSq pos (partAt parts m).pos < acc.d1 ∧
            0 < distSq pos (partAt parts m).pos
        · rw [if_pos h1]
          exact n2inv_extend_branch1 parts selfIdx pos L acc m h
            ⟨hg.1, hg.2, h1.2⟩ h1.1 hfr
        · rw [if_neg h1]
          by_cases h2 : distSq pos (partAt parts m).pos < acc.d2 ∧
              0 < distSq pos (partAt parts m).pos
          · rw [if_pos h2]
            have hge : acc.d1 ≤ distSq pos (partAt parts m).pos := by
              rcases not_and_or.mp h1 with hx | hx
              · exact le_of_not_lt hx
              · exact absurd h2.2 hx
            exact n2inv_extend_branch2 parts selfIdx pos L acc m h
              ⟨hg.1, hg.2, h2.2⟩ hge h2.1 hfr
          · rw [if_neg h2]
            by_cases hd0 : 0 < distSq pos (partAt parts m).pos
            · have hx1 : acc.d1 ≤ distSq pos (partAt parts m).pos :=
                le_of_not_lt (fun hc => h1 ⟨hc, hd0⟩)
              have hx2 : acc.d2 ≤ distSq pos (partAt parts m).pos :=
                le_of_not_lt (fun hc => h2 ⟨hc, hd0⟩)
              exact n2inv_extend_no_update parts selfIdx pos L acc m h
                ⟨hg.1, hg.2, hd0⟩ hx1 hx2 hfr
            · exact n2inv_extend_not_elig parts selfIdx pos L acc m h
                (fun hE => hd0 hE.2.2)
      · rw [if_neg hg]
        exact n2inv_extend_not_elig parts selfIdx pos L acc m h
          (fun hE => hg ⟨hE.1, hE.2.1⟩)
    have hrest : ∀ k ∈ L ++ [m], ∀ n ∈ rest, k < n := by
      intro k hk n hn
      rcases List.mem_append.mp hk with hk | hk
      · exact hfresh k hk n (List.mem_cons_of_mem m hn)
      · rw [List.mem_singleton] at hk
        subst hk
        exact (List.pairwise_cons.mp hpw).1 n hn
    have hmain := ih (L ++ [m]) _ hrest (List.pairwise_cons.mp hpw).2 hstep
    rw [List.foldl_cons]
    rw [List.append_assoc, List.singleton_append] at hmain
    exact hmain

/-- The invariant holds for the completed scan. -/
theorem nearestTwo_inv (parts : List Particle) (selfIdx : ℕ) (pos : Vec3) :
    LinkedParticles.N2Inv parts selfIdx pos (List.range parts.length)
      (LinkedParticles.nearestTwo parts selfIdx pos) := by
  have hbase : LinkedParticles.N2Inv parts selfIdx pos [] LinkedParticles.near2Init := by
    refine ⟨le_refl _, le_refl _, fun _ => ⟨rfl, rfl⟩, fun _ => ⟨rfl, rfl⟩,
      ?_, ?_, ?_, ?_⟩
    · intro hd
      exact absurd hd (lt_irrefl _)
    · intro hd
      exact absurd hd (lt_irrefl _)
    · intro j hj
      exact absurd hj (List.not_mem_nil j)
    · intro j hj
      exact absurd hj (List.not_mem_nil j)
  have hmain := near2_foldl_inv parts selfIdx pos (List.range parts.length) []
    LinkedParticles.near2Init (by intro k hk; exact absurd hk (List.not_mem_nil k))
    (List.pairwise_lt_range _) hbase
  rw [List.nil_append] at hmain
  exact hmain

/-- C4, counterexample.  The claim states the search "keeps the two
smallest squared distances" over all eligible (live, non-self,
nonzero-distance) slots; with one other live particle it promises the
first neighbour is selected (only the second one's life defaults to 0).
The scan's accumulators start at the sentinel `10000.0` and are updated
only by a strict `lessThan`, so a neighbour whose squared distance is
`≥ 10000` is never retained: here slot 1 is the unique eligible
neighbour, at squared distance exactly `10000` (Euclidean distance 100),
yet the result keeps the default payload — its life stays `0` and its
position stays `vec3(0)`, not slot 1's values. -/
theorem c4_counterexample :
    LinkedParticles.elig cexParts 0 ⟨0, 0, 0⟩ 1 ∧
    distSq ⟨0, 0, 0⟩ (partAt cexParts 1).pos = 10000 ∧
    (partAt cexParts 1).life = 1 ∧
    (LinkedParticles.nearestTwo cexParts 0 ⟨0, 0, 0⟩).l1 = 0 ∧
    (LinkedParticles.nearestTwo cexParts 0 ⟨0, 0, 0⟩).p1 = Vec3.zero := by
  have heval : LinkedParticles.nearestTwo cexParts 0 ⟨0, 0, 0⟩ =
      LinkedParticles.near2Init := by
    unfold LinkedParticles.nearestTwo
    rw [show cexParts.length = 2 from rfl, show List.range 2 = [0, 1] from rfl]
    simp only [List.foldl_cons, List.foldl_nil]
    unfold LinkedParticles.near2Step
    norm_num [partAt, cexParts, distSq, Vec3.sub, Vec3.lengthSq,
      LinkedParticles.near2Init]
  refine ⟨?_, ?_, ?_, ?_, ?_⟩
  · unfold LinkedParticles.elig
    norm_num [partAt, cexParts, distSq, Vec3.sub, Vec3.lengthSq]
  · norm_num [partAt, cexParts, distSq, Vec3.sub, Vec3.lengthSq]
  · norm_num [partAt, cexParts]
  · rw [heval]
    rfl
  · rw [heval]
    rfl

/-- C4, amended: for every live particle (`0 < ownLife`), the nearest-two
search never selects the particle itself, never selects a dead particle,
and excludes exact zero-distance candidates (any retained slot is
eligible); it keeps the two smallest squared distances *among candidates
strictly below the `10000.0` search sentinel*, with strict less-than
comparison, the first encountered winning on ties; and with 0 (resp. at
most 1) other live particles the missing neighbours' lives default to 0,
so the ribbon alpha base `max(0, min(neighbourLife, ownLife))` — and
hence the alpha `base^0.8` — resolves to 0. -/
theorem c4_neighbor_search (parts : List Particle) (selfIdx : ℕ) (pos : Vec3)
    (ownLife : ℚ) (r : LinkedParticles.Near2)
    (hr : r = LinkedParticles.nearestTwo parts selfIdx pos)
    (hlife : 0 < ownLife) :
    r.d1 ≤ r.d2 ∧
    (r.d1 < 10000 → ∃ j, j < parts.length ∧
      LinkedParticles.elig parts selfIdx pos j ∧
      distSq pos (partAt parts j).pos = r.d1 ∧
      r.p1 = (partAt parts j).pos ∧ r.l1 = (partAt parts j).life) ∧
    (r.d2 < 10000 → ∃ j k, j < parts.length ∧ k < parts.length ∧ j ≠ k ∧
      LinkedParticles.elig parts selfIdx pos j ∧
      LinkedParticles.elig parts selfIdx pos k ∧
      distSq pos (partAt parts j).pos = r.d1 ∧
      distSq pos (partAt parts k).pos = r.d2 ∧
      r.p2 = (partAt parts k).pos ∧ r.l2 = (partAt parts k).life) ∧
    (∀ j, j < parts.length → LinkedParticles.elig parts selfIdx pos j →
      r.d1 ≤ distSq pos (partAt parts j).pos) ∧
    (∀ j k, j < parts.length → k < parts.length → j ≠ k →
      LinkedParticles.elig parts selfIdx pos j →
      LinkedParticles.elig parts selfIdx pos k →
      distSq pos (partAt parts j).pos < r.d2 →
      distSq pos (partAt parts k).pos < r.d2 → False) ∧
    (∀ j, j < parts.length → LinkedParticles.elig parts selfIdx pos j →
      distSq pos (partAt parts j).pos = r.d1 → r.d1 < 10000 →
      (∀ k, k < j → LinkedParticles.elig parts selfIdx pos k →
        r.d1 < distSq pos (partAt parts k).pos) →
      r.p1 = (partAt parts j).pos ∧ r.l1 = (partAt parts j).life) ∧
    ((∀ j, j < parts.length → j ≠ selfIdx → (partAt parts j).life ≤ 0) →
      r.l1 = 0 ∧ r.l2 = 0 ∧
      LinkedParticles.alphaBase r.l1 ownLife = 0 ∧
      LinkedParticles.alphaBase r.l2 ownLife = 0) ∧
    ((∀ j k, j < parts.length → k < parts.length → j ≠ k →
        j ≠ selfIdx → k ≠ selfIdx →
        0 < (partAt parts j).life → 0 < (partAt parts k).life → False) →
      r.l2 = 0 ∧ LinkedParticles.alphaBase r.l2 ownLife = 0) := by
  subst hr
  obtain ⟨h12, hub, hdef1, hdef2, hfw, hsound2, hmin, htwo⟩ :=
    nearestTwo_inv parts selfIdx pos
  have halpha0 : LinkedParticles.alphaBase 0 ownLife = 0 := by
    unfold LinkedParticles.alphaBase
    rw [min_eq_left (le_of_lt hlife), max_self]
  refine ⟨h12, ?_, ?_, ?_, ?_, ?_, ?_, ?_⟩
  · intro hd
    obtain ⟨j, hjL, hjE, hjd, hjp, hjl, _⟩ := hfw hd
    exact ⟨j, List.mem_range.mp hjL, hjE, hjd, hjp, hjl⟩
  · intro hd
    obtain ⟨j, hjL, k, hkL, hjk, hjE, hkE, hjd, hkd, hkp, hkl⟩ := hsound2 hd
    exact ⟨j, k, List.mem_range.mp hjL, List.mem_range.mp hkL, hjk, hjE, hkE,
      hjd, hkd, hkp, hkl⟩
  · intro j hj hjE
    exact hmin j (List.mem_range.mpr hj) hjE
  · intro j k hj hk hjk hjE hkE hjd hkd
    exact htwo j (List.mem_range.mpr hj) k (List.mem_range.mpr hk) hjk hjE hkE hjd hkd
  · intro j hj hjE hjd hdlt hpre
    obtain ⟨j0, hj0L, hj0E, hj0d, hj0p, hj0l, hj0pre⟩ := hfw hdlt
    rcases lt_trichotomy j j0 with hlt | heq | hgt
    · exfalso
      have := hj0pre j (List.mem_range.mpr hj) hlt hjE
      rw [hjd] at this
      exact lt_irrefl _ this
    · subst heq
      exact ⟨hj0p, hj0l⟩
    · exfalso
      have := hpre j0 hgt hj0E
      rw [hj0d] at this
      exact lt_irrefl _ this
  · intro hno
    have hd1 : (LinkedParticles.nearestTwo parts selfIdx pos).d1 = 10000 := by
      by_contra hne
      obtain ⟨j, hjL, hjE, _⟩ := hfw (lt_of_le_of_ne (le_trans h12 hub) hne)
      exact absurd hjE.2.1 (not_lt.mpr (hno j (List.mem_range.mp hjL) hjE.1))
    have hd2 : (LinkedParticles.nearestTwo parts selfIdx pos).d2 = 10000 := by
      by_contra hne
      obtain ⟨j, hjL, k, hkL, hjk, hjE, hkE, _⟩ :=
        hsound2 (lt_of_le_of_ne hub hne)
      exact absurd hjE.2.1 (not_lt.mpr (hno j (List.mem_range.mp hjL) hjE.1))
    obtain ⟨_, hl1⟩ := hdef1 hd1
    obtain ⟨_, hl2⟩ := hdef2 hd2
    rw [hl1, hl2]
    exact ⟨rfl, rfl, halpha0, halpha0⟩
  · intro hone
    have hd2 : (LinkedParticles.nearestTwo parts selfIdx pos).d2 = 10000 := by
      by_contra hne
      obtain ⟨j, hjL, k, hkL, hjk, hjE, hkE, _⟩ :=
        hsound2 (lt_of_le_of_ne hub hne)
      exact hone j k (List.mem_range.mp hjL) (List.mem_range.mp hkL) hjk
        hjE.1 hkE.1 hjE.2.1 hkE.2.1
    obtain ⟨_, hl2⟩ := hdef2 hd2
    rw [hl2]
    exact ⟨rfl, halpha0⟩

/-- C4 amended-claim witness: three live particles around the origin. -/
theorem c4_neighbor_search_witness :
    (LinkedParticles.nearestTwo parts4w 0 ⟨0, 0, 0⟩).d1 ≤
      (LinkedParticles.nearestTwo parts4w 0 ⟨0, 0, 0⟩).d2 :=
  (c4_neighbor_search parts4w 0 ⟨0, 0, 0⟩ 1 _ rfl (by norm_num)).1
